import Mathlib

/-!
Shallow embedding of `AI_Research_Agent.py` (a three-stage YouTube content
research assistant) and proofs about the claims of its specification.

Strings are modelled as lists of characters (`Str`), so that every textual
operation of the source (regex extraction, `str.replace`, dict lookups) is an
executable Lean function that the kernel can evaluate on concrete inputs.

External effects are modelled as explicit inputs:
  * the outcome of the single `requests.head` call (`NetOutcome`),
  * the outcome of one `client.chat.completions.create` call (`ApiOutcome`),
  * the per-URL result delivered by a completed future (`CheckOutcome`),
  * the completion order of the concurrent checks (an `order` list),
  * the state of the JSON backing file (`StoreFile`).
-/

/-- Text is modelled as a list of characters. -/
abbrev Str := List Char

/-- Model of Python's regex class `\s` on `str` patterns: the characters
`str.isspace` accepts (ASCII whitespace, the C1 separators, and the Unicode
space separators). -/
def pyIsSpace (c : Char) : Bool :=
  c = ' ' || c = '\t' || c = '\n' || c = '\r' || c = '\x0b' || c = '\x0c' ||
  c = '\x1c' || c = '\x1d' || c = '\x1e' || c = '\x1f' || c = '\x85' ||
  c.toNat = 0xa0 || c.toNat = 0x1680 ||
  (0x2000 ≤ c.toNat && c.toNat ≤ 0x200a) ||
  c.toNat = 0x2028 || c.toNat = 0x2029 || c.toNat = 0x202f ||
  c.toNat = 0x205f || c.toNat = 0x3000

/-- Characters accepted by the body of the URL regex `[^\s\)\>]+` of
`verify_links_in_text` (line 336): anything except whitespace, a closing
parenthesis and a closing angle bracket. -/
def isUrlChar (c : Char) : Bool :=
  !(pyIsSpace c || c = ')' || c = '>')

/-- Consume the literal `p` from the front of `l`; `some rest` on success. -/
def eatLit : Str → Str → Option Str
  | [], l => some l
  | _ :: _, [] => none
  | a :: p, b :: l => if b = a then eatLit p l else none

/-- The characters of the literal alternative `https://`. -/
def httpsL : Str := "https://".toList

/-- The characters of the literal alternative `http://`. -/
def httpL : Str := "http://".toList

/-- Match the scheme part `https?://` of the URL regex at the front of `l`,
with the greedy-`s?`-then-backtrack behaviour of the regex engine: try
`https://` first, then `http://`.  Returns the consumed scheme and the rest. -/
def matchScheme (l : Str) : Option (Str × Str) :=
  match eatLit httpsL l with
  | some rest => some (httpsL, rest)
  | none =>
    match eatLit httpL l with
    | some rest => some (httpL, rest)
    | none => none

/-- Match the whole URL regex `https?://[^\s\)\>]+` anchored at the front of
`l` (greedy body, at least one body character).  Returns the match and the
remaining suffix of `l`. -/
def matchUrlAt (l : Str) : Option (Str × Str) :=
  match matchScheme l with
  | none => none
  | some (sch, rest) =>
    match rest.takeWhile isUrlChar with
    | [] => none
    | b :: body => some (sch ++ b :: body, rest.dropWhile isUrlChar)

/-- Fuelled scan of `re.findall`: at each position try the anchored match;
on success emit it and resume after the match (non-overlapping), otherwise
advance one character.  A successful match consumes at least one character,
so fuel `t.length` (supplied by `findall`) never runs out. -/
def findallF : Nat → Str → List Str
  | 0, _ => []
  | _ + 1, [] => []
  | fuel + 1, c :: cs =>
    match matchUrlAt (c :: cs) with
    | some (m, rest) => m :: findallF fuel rest
    | none => findallF fuel cs

/-- `re.findall(r'https?://[^\s\)\>]+', text)` (line 336). -/
def findall (t : Str) : List Str := findallF t.length t

/-- Position of the first occurrence of `u` in `t`, as the split
`t = pre ++ u ++ post`; `none` when (nonempty) `u` does not occur. -/
def findOcc (u : Str) : Str → Option (Str × Str)
  | [] => none
  | c :: cs =>
    match eatLit u (c :: cs) with
    | some rest => some ([], rest)
    | none =>
      match findOcc u cs with
      | some (pre, post) => some (c :: pre, post)
      | none => none

/-- Fuelled worker of Python's `str.replace`: repeatedly rewrite the first
remaining occurrence of `u` by `r`, scanning left to right without
re-examining the emitted replacement (non-overlapping).  Every step consumes
at least `u.length ≥ 1` characters, so fuel `t.length` never runs out. -/
def replF (u r : Str) : Nat → Str → Str
  | 0, t => t
  | fuel + 1, t =>
    match findOcc u t with
    | none => t
    | some (pre, post) => pre ++ r ++ replF u r fuel post

/-- Python's `verified_text.replace(url, ...)` (line 353): replace every
non-overlapping occurrence of `u` in `t` by `r`.  The extracted URLs are
never empty, so the `u = []` guard is only a totality device. -/
def replaceAll (t u r : Str) : Str :=
  if u = [] then t else replF u r t.length t

/-- Fuelled decomposition of `t` along the same non-overlapping occurrence
scan as `replF`: the segments of `t` between consecutive occurrences of `u`. -/
def splitF (u : Str) : Nat → Str → List Str
  | 0, t => [t]
  | fuel + 1, t =>
    match findOcc u t with
    | none => [t]
    | some (pre, post) => pre :: splitF u fuel post

/-- The segments of `t` between the non-overlapping occurrences of `u`
(the pieces `str.replace` keeps verbatim). -/
def splitAll (t u : Str) : List Str :=
  if u = [] then [t] else splitF u t.length t

/-- Number of non-overlapping occurrences of `u` in `t`, counted by the same
left-to-right scan `str.replace` performs. -/
def countOcc (t u : Str) : Nat := (splitAll t u).length - 1

/-- Whether (nonempty) `u` occurs somewhere in `t`. -/
def hasOcc (t u : Str) : Bool := (findOcc u t).isSome

/-- Join a list of segments with the separator `sep` between consecutive
segments. -/
def joinWith (sep : Str) : List Str → Str
  | [] => []
  | [x] => x
  | x :: y :: rest => x ++ sep ++ joinWith sep (y :: rest)

/-- Result that `future.result()` delivers for one URL check: the boolean
returned by `check_url_status`, or an exception re-raised by the future. -/
inductive CheckOutcome where
  | ok (valid : Bool)
  | exn
deriving DecidableEq

/-- The status glyph chosen in lines 347-350: `✅` when the check returned
true, `❌` when it returned false, `⚠️` when awaiting the future raised. -/
def glyphOf : CheckOutcome → Str
  | .ok true => "✅".toList
  | .ok false => "❌".toList
  | .exn => "⚠️".toList

/-- The `url_statuses` dict of lines 343-350, keyed by URL in insertion
order.  `order` is the completion order in which `as_completed` yields the
futures of the distinct URLs; `outcome` is the fixed check result per URL. -/
def url_statuses (outcome : Str → CheckOutcome) (order : List Str) :
    List (Str × Str) :=
  order.map fun u => (u, glyphOf (outcome u))

/-- One iteration of the rewrite loop in lines 352-353:
`verified_text = verified_text.replace(url, f'{url} {status}')`. -/
def annotStep (t : Str) (p : Str × Str) : Str :=
  replaceAll t p.1 (p.1 ++ ' ' :: p.2)

/-- `verify_links_in_text` (lines 332-355), with the thread-pool scheduling
made explicit: `outcome` fixes each URL's check result and `order` is the
completion order of the futures over the distinct URLs (which is also the
insertion order, hence iteration order, of the `url_statuses` dict). -/
def verify_links_in_text (outcome : Str → CheckOutcome) (order : List Str)
    (text : Str) : Str :=
  if text = [] then []
  else if findall text = [] then text
  else (url_statuses outcome order).foldl annotStep text

/-- The `if not text: return ""` guard of line 334 also covers an absent
(`None`) input; this wrapper models that case explicitly. -/
def verify_links_in_text_opt (outcome : Str → CheckOutcome)
    (order : List Str) : Option Str → Str
  | none => []
  | some t => verify_links_in_text outcome order t

/-- A completion order the thread pool can produce for a computed URL list
`urls`: each distinct URL exactly once (`set(urls)` keys a dict of futures,
and `as_completed` yields every future exactly once, in some order). -/
def validOrder (order urls : List Str) : Prop :=
  order.Nodup ∧ (∀ u ∈ order, u ∈ urls) ∧ (∀ u ∈ urls, u ∈ order)

/-- Outcome of the `requests.head(url, allow_redirects=True, timeout=5)`
call inside `check_url_status` (line 77): a response with a status code, a
`requests.RequestException` (every network-level failure the library
raises), or an exception outside that class. -/
inductive NetOutcome where
  | status (code : Nat)
  | requestError
  | otherError
deriving DecidableEq

/-- `check_url_status` (lines 73-84).  The `try` body classifies the status
code; the single `except requests.RequestException` clause returns `False`;
an exception of any other class is uncaught, modelled as `Except.error`. -/
def check_url_status : NetOutcome → Except Unit Bool
  | .status c => .ok (decide (200 ≤ c ∧ c < 400))
  | .requestError => .ok false
  | .otherError => .error ()

/-- One stored record of the JSON file: the object
`{"perplexity_result": ...}` written by `save_result` (lines 133-135). -/
structure StoredRecord where
  perplexity_result : Str
deriving DecidableEq

/-- State of the backing file `research_results.json`: missing, present but
not valid JSON (so `json.load` raises `JSONDecodeError`), or a parsed
topic-keyed mapping.  `json` serialization with `ensure_ascii=False` is
lossless on Unicode, so a parseable document is modelled directly by the
mapping it denotes. -/
inductive StoreFile where
  | absent
  | corrupt (raw : Str)
  | mapping (entries : List (Str × StoredRecord))
deriving DecidableEq

/-- Python dict assignment `d[k] = v`: overwrite the entry of `k` in place
when present, otherwise append a new entry. -/
def dictInsert {α : Type} (k : Str) (v : α) :
    List (Str × α) → List (Str × α)
  | [] => [(k, v)]
  | (k', v') :: rest =>
    if k' = k then (k, v) :: rest else (k', v') :: dictInsert k v rest

/-- Python dict lookup `d[k]` / `k in d`, as an option. -/
def lookupKey {α : Type} (k : Str) : List (Str × α) → Option α
  | [] => none
  | (k', v) :: rest => if k' = k then some v else lookupKey k rest

/-- Keys of an association list are pairwise distinct (every mapping
produced by `json.load` or built by dict assignment satisfies this). -/
abbrev NodupKeys {α : Type} (l : List (Str × α)) : Prop :=
  (l.map Prod.fst).Nodup

/-- Number of entries of `l` carrying the key `k`. -/
def keyCount {α : Type} (k : Str) (l : List (Str × α)) : Nat :=
  (l.filter fun p => p.1 == k).length

/-- `load_stored_data` (lines 120-128): missing file and unparseable file
both yield the empty mapping, without raising. -/
def load_stored_data : StoreFile → List (Str × StoredRecord)
  | .absent => []
  | .corrupt _ => []
  | .mapping entries => entries

/-- `save_result` (lines 130-137): re-load the full mapping, overwrite the
entry of `topic` with a fresh one-field record, and write the whole mapping
back, fully replacing the file. -/
def save_result (topic result : Str) (fs : StoreFile) : StoreFile :=
  .mapping (dictInsert topic ⟨result⟩ (load_stored_data fs))

/-- Outcome of the `client.chat.completions.create` call in
`openrouter_chat` (lines 147-152): a completion whose first choice has an
optional `content` field, or one of the exception classes the function
catches (`APITimeoutError`, `RateLimitError`, `APIError`, anything else). -/
inductive ApiOutcome where
  | completed (content : Option Str)
  | timedOut
  | rateLimited (e : Str)
  | apiError (status : Nat) (msg : Str)
  | otherFailure (e : Str)
deriving DecidableEq

/-- What `openrouter_chat` hands back: its return value (the content string
or `None`) together with the `st.error` messages it displayed. -/
structure ChatOutput where
  result : Option Str
  errors : List Str
deriving DecidableEq

/-- Message of line 155 (missing `content` in the response). -/
def msgMalformed : Str :=
  "API 回應格式錯誤：在回傳資料中找不到 \x27content\x27。".toList

/-- Message of line 161 (`APITimeoutError`); the f-string interpolates the
constant `600`. -/
def msgTimeout : Str :=
  "API 請求超時：伺服器在 600 秒內未完成回應。".toList

/-- Message of line 164 (`RateLimitError`), around the exception text. -/
def msgRateLimited (e : Str) : Str :=
  "API 速率限制錯誤：請稍後再試。 (".toList ++ (e ++ ")".toList)

/-- Message of line 167 (`APIError`), around the status code and message. -/
def msgApiError (status : Nat) (msg : Str) : Str :=
  "OpenRouter API 錯誤 (HTTP ".toList ++
    ((toString status).toList ++ (")：".toList ++ msg))

/-- Message of line 171 (any other exception), around the exception text. -/
def msgUnknown (e : Str) : Str :=
  "呼叫 API 時發生未預期的錯誤: ".toList ++ e

/-- `openrouter_chat` (lines 144-173): return the content of the first
choice on success; on a missing content field or any caught exception,
display one kind-specific message and return `None`.  The function is total
on `ApiOutcome`: no outcome escapes as an uncaught fault. -/
def openrouter_chat : ApiOutcome → ChatOutput
  | .completed (some c) => ⟨some c, []⟩
  | .completed none => ⟨none, [msgMalformed]⟩
  | .timedOut => ⟨none, [msgTimeout]⟩
  | .rateLimited e => ⟨none, [msgRateLimited e]⟩
  | .apiError s m => ⟨none, [msgApiError s m]⟩
  | .otherFailure e => ⟨none, [msgUnknown e]⟩

/-- Whether an `ApiOutcome` is one of the failure shapes of the taxonomy
(everything except a completion carrying a content string). -/
def isFailure : ApiOutcome → Bool
  | .completed (some _) => false
  | _ => true

/-- Python `str.strip()` with no argument: drop leading and trailing
whitespace. -/
def pyStrip (s : Str) : Str :=
  ((s.dropWhile pyIsSpace).reverse.dropWhile pyIsSpace).reverse

/-- Observable effect of one run of the tab-2 deep-research handler: the
resulting backing file, the session map `st.session_state.research_result`,
whether `search_with_perplexity` (hence the LLM gateway) was invoked, and
whether the handler ended on its `st.error` failure branch. -/
structure Tab2Result where
  fs : StoreFile
  research_result : List (Str × Str)
  calledGateway : Bool
  showedError : Bool
deriving DecidableEq

/-- The tab-2 deep-research handler (lines 451-465).  Runs only when the
button is pressed with a non-blank topic (`topic_input.strip()` truthy).
On a cache hit the stored record is copied into the session map with no
gateway call.  On a miss, `search_with_perplexity` reduces to
`openrouter_chat` on the call's outcome `api`; a truthy result (`some r`
with `r` nonempty, Python string truthiness) is saved and cached, anything
else takes the error branch and leaves both the file and the session map
untouched. -/
def tab2_deep_research (fs : StoreFile) (session : List (Str × Str))
    (topic : Str) (api : ApiOutcome) : Tab2Result :=
  if pyStrip topic = [] then ⟨fs, session, false, false⟩
  else
    match lookupKey topic (load_stored_data fs) with
    | some rec => ⟨fs, dictInsert topic rec.perplexity_result session, false, false⟩
    | none =>
      match (openrouter_chat api).result with
      | some r =>
        if r = [] then ⟨fs, session, true, true⟩
        else ⟨save_result topic r fs, dictInsert topic r session, true, false⟩
      | none => ⟨fs, session, true, true⟩


/-! ### Association-list lemmas for the store model -/

theorem lookupKey_dictInsert_self {α : Type} (k : Str) (v : α)
    (l : List (Str × α)) : lookupKey k (dictInsert k v l) = some v := by
  induction l with
  | nil => simp [dictInsert, lookupKey]
  | cons p rest ih =>
    obtain ⟨k', v'⟩ := p
    by_cases h : k' = k
    · simp [dictInsert, h, lookupKey]
    · simp [dictInsert, h, lookupKey, ih]

theorem lookupKey_dictInsert_ne {α : Type} {q k : Str} (hne : q ≠ k) (v : α)
    (l : List (Str × α)) : lookupKey q (dictInsert k v l) = lookupKey q l := by
  have hkq : ¬ (k = q) := fun h => hne h.symm
  induction l with
  | nil => simp [dictInsert, lookupKey, hkq]
  | cons p rest ih =>
    obtain ⟨k', v'⟩ := p
    by_cases h : k' = k
    · subst h
      simp [dictInsert, lookupKey, hkq]
    · simp [dictInsert, h, lookupKey, ih]

theorem mem_keys_dictInsert {α : Type} {x k : Str} {v : α}
    {l : List (Str × α)} (h : x ∈ (dictInsert k v l).map Prod.fst) :
    x = k ∨ x ∈ l.map Prod.fst := by
  induction l with
  | nil =>
    simp only [dictInsert, List.map_cons, List.map_nil, List.mem_singleton] at h
    exact Or.inl h
  | cons p rest ih =>
    obtain ⟨k', v'⟩ := p
    by_cases hk : k' = k
    · simp only [dictInsert, if_pos hk, List.map_cons, List.mem_cons] at h
      rcases h with h | h
      · exact Or.inl h
      · refine Or.inr ?_
        rw [List.map_cons]
        exact List.mem_cons_of_mem _ h
    · simp only [dictInsert, if_neg hk, List.map_cons, List.mem_cons] at h
      rcases h with h | h
      · refine Or.inr ?_
        rw [List.map_cons]
        exact List.mem_cons.2 (Or.inl h)
      · rcases ih h with h2 | h2
        · exact Or.inl h2
        · refine Or.inr ?_
          rw [List.map_cons]
          exact List.mem_cons_of_mem _ h2

theorem nodupKeys_dictInsert {α : Type} (k : Str) (v : α)
    {l : List (Str × α)} (h : NodupKeys l) :
    NodupKeys (dictInsert k v l) := by
  induction l with
  | nil => simp [dictInsert, NodupKeys]
  | cons p rest ih =>
    obtain ⟨k', v'⟩ := p
    simp only [NodupKeys, List.map_cons, List.nodup_cons] at h ⊢
    by_cases hk : k' = k
    · subst hk
      have hdi : dictInsert k' v ((k', v') :: rest) = (k', v) :: rest := by
        simp [dictInsert]
      rw [hdi, List.map_cons, List.nodup_cons]
      exact h
    · simp only [dictInsert, if_neg hk, List.map_cons, List.nodup_cons]
      refine ⟨?_, ih h.2⟩
      intro hmem
      rcases mem_keys_dictInsert hmem with rfl | hmem2
      · exact hk rfl
      · exact h.1 hmem2

theorem keyCount_eq_zero {α : Type} {k : Str} {l : List (Str × α)}
    (h : k ∉ l.map Prod.fst) : keyCount k l = 0 := by
  induction l with
  | nil => rfl
  | cons p rest ih =>
    simp only [List.map_cons, List.mem_cons, not_or] at h
    have h1 : (p.1 == k) = false := by
      simp only [beq_eq_false_iff_ne]
      exact fun hh => h.1 hh.symm
    simp only [keyCount, List.filter_cons, h1, if_neg Bool.false_ne_true]
    exact ih h.2

theorem keyCount_dictInsert_one {α : Type} (k : Str) (v : α)
    {l : List (Str × α)} (h : NodupKeys l) :
    keyCount k (dictInsert k v l) = 1 := by
  induction l with
  | nil => simp [dictInsert, keyCount, List.filter]
  | cons p rest ih =>
    obtain ⟨k', v'⟩ := p
    simp only [NodupKeys, List.map_cons, List.nodup_cons] at h
    by_cases hk : k' = k
    · subst hk
      have hdi : dictInsert k' v ((k', v') :: rest) = (k', v) :: rest := by
        simp [dictInsert]
      rw [hdi]
      have h0 : keyCount k' rest = 0 := keyCount_eq_zero h.1
      unfold keyCount at h0 ⊢
      rw [List.filter_cons_of_pos (by simp), List.length_cons, h0]
    · have hb : (k' == k) = false := by
        simp only [beq_eq_false_iff_ne]; exact hk
      simp only [dictInsert, if_neg hk, keyCount, List.filter_cons, hb,
        if_neg Bool.false_ne_true]
      exact ih h.2

/-! ### C2, C6 — the result store -/

/-- C2: `save_result` followed by `load_stored_data` round-trips: after
saving `R1` under topic `T`, `T` maps to the single-field record holding
`R1`; a second save of `R2` overwrites the entry in place and leaves exactly
one entry keyed `T`; every other topic's entry is unchanged; and the content
strings (arbitrary Unicode, `ensure_ascii=False`) round-trip verbatim. -/
theorem c2_store_roundtrip (T R1 R2 : Str) (fs : StoreFile)
    (hnd : NodupKeys (load_stored_data fs)) :
    lookupKey T (load_stored_data (save_result T R1 fs)) = some ⟨R1⟩
    ∧ lookupKey T (load_stored_data (save_result T R2 (save_result T R1 fs)))
        = some ⟨R2⟩
    ∧ keyCount T (load_stored_data (save_result T R2 (save_result T R1 fs))) = 1
    ∧ ∀ T2, T2 ≠ T →
        lookupKey T2 (load_stored_data (save_result T R1 fs))
          = lookupKey T2 (load_stored_data fs) := by
  refine ⟨?_, ?_, ?_, ?_⟩
  · exact lookupKey_dictInsert_self T (StoredRecord.mk R1) _
  · exact lookupKey_dictInsert_self T (StoredRecord.mk R2) _
  · exact keyCount_dictInsert_one T (StoredRecord.mk R2)
      (nodupKeys_dictInsert T (StoredRecord.mk R1) hnd)
  · intro T2 hne
    exact lookupKey_dictInsert_ne hne (StoredRecord.mk R1) _

def c2wFs : StoreFile := .mapping [("既有主題".toList, ⟨"既有結果".toList⟩)]

def c2wT : Str := "主題🎬測試".toList

def c2wR1 : Str := "研究結果一 ✅ résumé".toList

def c2wR2 : Str := "研究結果二".toList

/-- Witness for C2: the round-trip theorem applied at concrete Unicode
topics and results over a store holding an unrelated entry. -/
theorem c2_witness :
    NodupKeys (load_stored_data c2wFs)
    ∧ lookupKey c2wT (load_stored_data (save_result c2wT c2wR1 c2wFs))
        = some (StoredRecord.mk c2wR1)
    ∧ lookupKey c2wT
        (load_stored_data (save_result c2wT c2wR2 (save_result c2wT c2wR1 c2wFs)))
        = some (StoredRecord.mk c2wR2)
    ∧ keyCount c2wT
        (load_stored_data (save_result c2wT c2wR2 (save_result c2wT c2wR1 c2wFs))) = 1
    ∧ lookupKey ("既有主題".toList) (load_stored_data (save_result c2wT c2wR1 c2wFs))
        = lookupKey ("既有主題".toList) (load_stored_data c2wFs) :=
  ⟨by decide,
   (c2_store_roundtrip c2wT c2wR1 c2wR2 c2wFs (by decide)).1,
   (c2_store_roundtrip c2wT c2wR1 c2wR2 c2wFs (by decide)).2.1,
   (c2_store_roundtrip c2wT c2wR1 c2wR2 c2wFs (by decide)).2.2.1,
   (c2_store_roundtrip c2wT c2wR1 c2wR2 c2wFs (by decide)).2.2.2 _ (by decide)⟩

/-- C6: `load_stored_data` yields the empty mapping both for a missing
backing file and for a file whose content fails to parse, in both cases as a
total function (no error escapes to the caller). -/
theorem c6_store_resilience :
    load_stored_data StoreFile.absent = []
    ∧ ∀ raw : Str, load_stored_data (StoreFile.corrupt raw) = [] :=
  ⟨rfl, fun _ => rfl⟩

/-! ### C3 — the URL checker -/

/-- C3 counterexample: the claim says every exception raised during the
check collapses to `False`, but `check_url_status` only catches
`requests.RequestException` (line 83); an exception outside that class
propagates uncaught instead of returning `false`. -/
theorem c3_counterexample :
    check_url_status NetOutcome.otherError = .error ()
    ∧ check_url_status NetOutcome.otherError ≠ .ok false :=
  ⟨rfl, by simp [check_url_status]⟩

/-- C3 (amended): `check_url_status` returns `true` exactly for status codes
in `[200, 400)` (true at 200 and 399; false at 199, 400, 500); every
`requests.RequestException` — i.e. every network-level failure the library
signals — collapses to `false`; an exception outside that class propagates
to the caller instead of being converted to `false`. -/
theorem c3_amended :
    (∀ code : Nat,
      check_url_status (.status code) = .ok true ↔ (200 ≤ code ∧ code < 400))
    ∧ check_url_status (.status 200) = .ok true
    ∧ check_url_status (.status 399) = .ok true
    ∧ check_url_status (.status 199) = .ok false
    ∧ check_url_status (.status 400) = .ok false
    ∧ check_url_status (.status 500) = .ok false
    ∧ check_url_status NetOutcome.requestError = .ok false
    ∧ check_url_status NetOutcome.otherError = .error () := by
  refine ⟨?_, rfl, rfl, rfl, rfl, rfl, rfl, rfl⟩
  intro code
  simp [check_url_status]

/-! ### C4 — the LLM gateway failure taxonomy -/

theorem ne_of_discr {a b : Str} {ca cb : Char} (ha : a[4]? = some ca)
    (hb : b[4]? = some cb) (hne : ca ≠ cb) : a ≠ b := by
  intro h
  subst h
  rw [ha] at hb
  exact hne (Option.some.inj hb)

theorem msgTimeout_discr : msgTimeout[4]? = some '請' := by decide

theorem msgMalformed_discr : msgMalformed[4]? = some '回' := by decide

theorem msgRateLimited_discr (e : Str) : (msgRateLimited e)[4]? = some '速' := by
  unfold msgRateLimited
  have h1 : 4 < ("API 速率限制錯誤：請稍後再試。 (".toList : Str).length := by decide
  rw [List.getElem?_append_left h1]
  decide

theorem msgApiError_discr (status : Nat) (msg : Str) :
    (msgApiError status msg)[4]? = some 'R' := by
  unfold msgApiError
  have h1 : 4 < ("OpenRouter API 錯誤 (HTTP ".toList : Str).length := by decide
  rw [List.getElem?_append_left h1]
  decide

theorem msgUnknown_discr (e : Str) : (msgUnknown e)[4]? = some 'P' := by
  unfold msgUnknown
  have h1 : 4 < ("呼叫 API 時發生未預期的錯誤: ".toList : Str).length := by decide
  rw [List.getElem?_append_left h1]
  decide

/-- C4: every failure of the gateway call — timeout, rate limit, structured
API error, missing content field, or any other exception — makes
`openrouter_chat` return `none` together with exactly one displayed error
message, and the five failure kinds always produce pairwise-distinct
messages, whatever the dynamic payloads; the function is total on
`ApiOutcome`, so no fault escapes as an uncaught exception. -/
theorem c4_gateway_failures :
    (∀ o : ApiOutcome, isFailure o = true →
        (openrouter_chat o).result = none ∧ (openrouter_chat o).errors.length = 1)
    ∧ (∀ (e1 : Str) (s : Nat) (m e2 : Str),
        List.Pairwise (fun a b => a ≠ b)
          [msgTimeout, msgRateLimited e1, msgApiError s m, msgMalformed,
            msgUnknown e2]) := by
  constructor
  · intro o ho
    cases o with
    | completed c =>
      cases c with
      | none => exact ⟨rfl, rfl⟩
      | some s => simp [isFailure] at ho
    | timedOut => exact ⟨rfl, rfl⟩
    | rateLimited e => exact ⟨rfl, rfl⟩
    | apiError s m => exact ⟨rfl, rfl⟩
    | otherFailure e => exact ⟨rfl, rfl⟩
  · intro e1 s m e2
    have d1 := msgTimeout_discr
    have d2 := msgRateLimited_discr e1
    have d3 := msgApiError_discr s m
    have d4 := msgMalformed_discr
    have d5 := msgUnknown_discr e2
    refine List.Pairwise.cons ?_ (List.Pairwise.cons ?_ (List.Pairwise.cons ?_
      (List.Pairwise.cons ?_ (List.Pairwise.cons ?_ List.Pairwise.nil))))
    · intro b hb
      simp only [List.mem_cons, List.not_mem_nil, or_false] at hb
      rcases hb with rfl | rfl | rfl | rfl
      · exact ne_of_discr d1 d2 (by decide)
      · exact ne_of_discr d1 d3 (by decide)
      · exact ne_of_discr d1 d4 (by decide)
      · exact ne_of_discr d1 d5 (by decide)
    · intro b hb
      simp only [List.mem_cons, List.not_mem_nil, or_false] at hb
      rcases hb with rfl | rfl | rfl
      · exact ne_of_discr d2 d3 (by decide)
      · exact ne_of_discr d2 d4 (by decide)
      · exact ne_of_discr d2 d5 (by decide)
    · intro b hb
      simp only [List.mem_cons, List.not_mem_nil, or_false] at hb
      rcases hb with rfl | rfl
      · exact ne_of_discr d3 d4 (by decide)
      · exact ne_of_discr d3 d5 (by decide)
    · intro b hb
      simp only [List.mem_cons, List.not_mem_nil, or_false] at hb
      rcases hb with rfl
      exact ne_of_discr d4 d5 (by decide)
    · intro b hb
      simp only [List.not_mem_nil] at hb

/-- Witness for C4: a timeout outcome is a failure, yields `none` and one
message. -/
theorem c4_witness :
    isFailure ApiOutcome.timedOut = true
    ∧ (openrouter_chat ApiOutcome.timedOut).result = none
    ∧ (openrouter_chat ApiOutcome.timedOut).errors.length = 1 :=
  ⟨rfl, (c4_gateway_failures.1 ApiOutcome.timedOut rfl).1,
    (c4_gateway_failures.1 ApiOutcome.timedOut rfl).2⟩

/-! ### C5, C10 — the tab-2 deep-research flow -/

/-- C5: for a topic missing from the store (and a non-blank topic input),
the handler invokes the gateway; when the gateway call fails (returns
`None`), the persisted mapping is left exactly as it was — no entry for the
topic is written — and the error branch is taken. -/
theorem c5_cache_bypass (fs : StoreFile) (session : List (Str × Str))
    (topic : Str) (api : ApiOutcome)
    (hne : pyStrip topic ≠ [])
    (hmiss : lookupKey topic (load_stored_data fs) = none) :
    (tab2_deep_research fs session topic api).calledGateway = true
    ∧ ((openrouter_chat api).result = none →
        tab2_deep_research fs session topic api
          = ⟨fs, session, true, true⟩) := by
  unfold tab2_deep_research
  rw [if_neg hne, hmiss]
  constructor
  · cases hres : (openrouter_chat api).result with
    | none => rfl
    | some r =>
      by_cases hr : r = []
      · simp [hr]
      · simp [hr]
  · intro hres
    rw [hres]

def c5wFs : StoreFile := .mapping [("其他主題".toList, ⟨"既有研究".toList⟩)]

def c5wTopic : Str := "X".toList

/-- Witness for C5: topic `X` absent from a store holding another topic, and
a timed-out gateway call: the gateway is invoked and the store is unchanged. -/
theorem c5_witness :
    pyStrip c5wTopic ≠ []
    ∧ lookupKey c5wTopic (load_stored_data c5wFs) = none
    ∧ (tab2_deep_research c5wFs [] c5wTopic ApiOutcome.timedOut).calledGateway = true
    ∧ ((openrouter_chat ApiOutcome.timedOut).result = none →
        tab2_deep_research c5wFs [] c5wTopic ApiOutcome.timedOut
          = ⟨c5wFs, [], true, true⟩) :=
  ⟨by decide, by decide,
   (c5_cache_bypass c5wFs [] c5wTopic ApiOutcome.timedOut (by decide) (by decide)).1,
   (c5_cache_bypass c5wFs [] c5wTopic ApiOutcome.timedOut (by decide) (by decide)).2⟩

/-- C10: on a cache miss, a gateway call that succeeds but returns the empty
string is treated exactly like a failure (Python truthiness of `""`): the
handler's result coincides with the result of a timed-out call — nothing is
written to the store, the session map is untouched, the gateway was called,
and the error branch is shown — so this flow never stores a record whose
result field is the empty string. -/
theorem c10_empty_result (fs : StoreFile) (session : List (Str × Str))
    (topic : Str) (api : ApiOutcome)
    (hne : pyStrip topic ≠ [])
    (hmiss : lookupKey topic (load_stored_data fs) = none)
    (hempty : (openrouter_chat api).result = some []) :
    tab2_deep_research fs session topic api = ⟨fs, session, true, true⟩
    ∧ tab2_deep_research fs session topic api
        = tab2_deep_research fs session topic ApiOutcome.timedOut := by
  unfold tab2_deep_research
  simp only [if_neg hne, hmiss, hempty]
  exact ⟨rfl, rfl⟩

def c10wFs : StoreFile := .mapping [("其他".toList, ⟨"內容".toList⟩)]

/-- Witness for C10: concrete cache-missing topic with a successful gateway
call returning the empty string. -/
theorem c10_witness :
    pyStrip ("X".toList : Str) ≠ []
    ∧ lookupKey ("X".toList : Str) (load_stored_data c10wFs) = none
    ∧ (openrouter_chat (ApiOutcome.completed (some []))).result = some []
    ∧ tab2_deep_research c10wFs [] ("X".toList) (ApiOutcome.completed (some []))
        = ⟨c10wFs, [], true, true⟩ :=
  ⟨by decide, by decide, rfl,
   (c10_empty_result c10wFs [] ("X".toList) (ApiOutcome.completed (some []))
      (by decide) (by decide) rfl).1⟩

/-! ### Lemmas about the annotator -/

theorem lookupKey_url_statuses (outcome : Str → CheckOutcome)
    (order : List Str) (u : Str) :
    lookupKey u (url_statuses outcome order) =
      if u ∈ order then some (glyphOf (outcome u)) else none := by
  induction order with
  | nil => simp [url_statuses, lookupKey]
  | cons v rest ih =>
    by_cases h : v = u
    · subst h
      simp [url_statuses, lookupKey]
    · simp only [url_statuses, List.map_cons, lookupKey, if_neg h] at ih ⊢
      rw [ih]
      by_cases hm : u ∈ rest
      · rw [if_pos hm, if_pos (List.mem_cons_of_mem v hm)]
      · have hnc : ¬ (u ∈ v :: rest) := by
          intro hc
          rcases List.mem_cons.1 hc with h2 | h2
          · exact h h2.symm
          · exact hm h2
        rw [if_neg hm, if_neg hnc]

theorem splitF_ne_nil (u : Str) (fuel : Nat) (t : Str) :
    splitF u fuel t ≠ [] := by
  cases fuel with
  | zero => simp [splitF]
  | succ n =>
    simp only [splitF]
    cases findOcc u t with
    | none => simp
    | some p => simp

theorem splitAll_ne_nil (t u : Str) : splitAll t u ≠ [] := by
  unfold splitAll
  split
  · simp
  · exact splitF_ne_nil u t.length t

theorem replF_eq_joinWith (u r : Str) : ∀ (fuel : Nat) (t : Str),
    replF u r fuel t = joinWith r (splitF u fuel t) := by
  intro fuel
  induction fuel with
  | zero => intro t; rfl
  | succ n ih =>
    intro t
    simp only [replF, splitF]
    cases h : findOcc u t with
    | none => rfl
    | some p =>
      obtain ⟨pre, post⟩ := p
      dsimp only
      rw [ih post]
      cases hsp : splitF u n post with
      | nil => exact absurd hsp (splitF_ne_nil u n post)
      | cons a l => simp [joinWith]

theorem matchUrlAt_fst_ne_nil {l m rest : Str}
    (h : matchUrlAt l = some (m, rest)) : m ≠ [] := by
  unfold matchUrlAt at h
  cases hs : matchScheme l with
  | none => rw [hs] at h; cases h
  | some p =>
    rw [hs] at h
    obtain ⟨sch, r0⟩ := p
    dsimp only at h
    cases htw : r0.takeWhile isUrlChar with
    | nil => rw [htw] at h; cases h
    | cons b body =>
      rw [htw] at h
      dsimp only at h
      injection h with h
      have hm : sch ++ b :: body = m := congrArg Prod.fst h
      intro hnil
      rw [← hm] at hnil
      simp at hnil

theorem findallF_ne_nil : ∀ (fuel : Nat) (t : Str), ∀ m ∈ findallF fuel t,
    m ≠ [] := by
  intro fuel
  induction fuel with
  | zero => intro t m hm; simp [findallF] at hm
  | succ n ih =>
    intro t m hm
    cases t with
    | nil => simp [findallF] at hm
    | cons c cs =>
      simp only [findallF] at hm
      cases h : matchUrlAt (c :: cs) with
      | none =>
        rw [h] at hm
        exact ih cs m hm
      | some p =>
        rw [h] at hm
        obtain ⟨m0, rest⟩ := p
        rcases List.mem_cons.1 hm with rfl | hm2
        · exact matchUrlAt_fst_ne_nil h
        · exact ih rest m hm2

theorem findall_ne_nil {t m : Str} (hm : m ∈ findall t) : m ≠ [] :=
  findallF_ne_nil t.length t m hm

theorem eq_single_of_forall_eq {l : List Str} {U : Str} (hn : l.Nodup)
    (hall : ∀ x ∈ l, x = U) (hm : U ∈ l) : l = [U] := by
  cases l with
  | nil => cases hm
  | cons a t =>
    have ha : a = U := hall a (List.mem_cons_self a t)
    subst ha
    have ht : t = [] := by
      cases t with
      | nil => rfl
      | cons b t2 =>
        have hb : b = a := hall b (List.mem_cons_of_mem a (List.mem_cons_self b t2))
        rw [List.nodup_cons] at hn
        exact absurd (hb ▸ List.mem_cons_self b t2) hn.1
    rw [ht]

/-! ### C1 — determinism of the annotator under fixed check results -/

def c1Text : Str := "http://a http://a/b".toList

def c1OrderA : List Str := ["http://a".toList, "http://a/b".toList]

def c1OrderB : List Str := ["http://a/b".toList, "http://a".toList]

def c1Outcome : Str → CheckOutcome := fun _ => .ok true

/-- C1 counterexample: with the fixed all-valid outcome mapping, the text
`"http://a http://a/b"` (whose extracted URL set is exactly the two listed
URLs) produces different final outputs under two legitimate completion
orders, because replacing the shorter URL first also rewrites its occurrence
inside the longer one.  The claim that the output never depends on
dispatch/completion order is therefore false. -/
theorem c1_counterexample :
    validOrder c1OrderA (findall c1Text)
    ∧ validOrder c1OrderB (findall c1Text)
    ∧ verify_links_in_text c1Outcome c1OrderA c1Text
        ≠ verify_links_in_text c1Outcome c1OrderB c1Text := by
  refine ⟨⟨by decide, by decide, by decide⟩, ⟨by decide, by decide, by decide⟩, by decide⟩

/-- C1 (amended): given a fixed URL→outcome mapping, the URL→glyph status
assignment the annotator computes is uniquely determined by the text's
extracted URL set and the mapping, independent of the order in which the
concurrent checks are dispatched or complete: any two completion orders
yield the same status dictionary up to entry order (a permutation) and, as
a key-value map, pointwise equal lookups.  The final rewritten text can
however depend on the completion order when one extracted URL is a
substring of another (see the counterexample). -/
theorem c1_amended (outcome : Str → CheckOutcome) (urls o1 o2 : List Str)
    (h1 : validOrder o1 urls) (h2 : validOrder o2 urls) :
    (url_statuses outcome o1).Perm (url_statuses outcome o2)
    ∧ ∀ u : Str, lookupKey u (url_statuses outcome o1)
        = lookupKey u (url_statuses outcome o2) := by
  obtain ⟨hn1, hs1, hl1⟩ := h1
  obtain ⟨hn2, hs2, hl2⟩ := h2
  have hmem : ∀ u, u ∈ o1 ↔ u ∈ o2 :=
    fun u => ⟨fun h => hl2 u (hs1 u h), fun h => hl1 u (hs2 u h)⟩
  constructor
  · exact ((List.perm_ext_iff_of_nodup hn1 hn2).2 hmem).map _
  · intro u
    rw [lookupKey_url_statuses, lookupKey_url_statuses]
    by_cases h : u ∈ o1
    · rw [if_pos h, if_pos ((hmem u).1 h)]
    · rw [if_neg h, if_neg (fun hh => h ((hmem u).2 hh))]

def c1wUrls : List Str := ["http://a".toList, "http://b".toList]

def c1wOrderB : List Str := ["http://b".toList, "http://a".toList]

/-- Witness for C1 (amended): two opposite completion orders over the same
two URLs give permuted status lists and the same lookup for a URL. -/
theorem c1_witness :
    validOrder c1wUrls c1wUrls
    ∧ validOrder c1wOrderB c1wUrls
    ∧ lookupKey ("http://a".toList : Str) (url_statuses c1Outcome c1wUrls)
        = lookupKey ("http://a".toList : Str) (url_statuses c1Outcome c1wOrderB) :=
  ⟨⟨by decide, by decide, by decide⟩, ⟨by decide, by decide, by decide⟩,
   (c1_amended c1Outcome c1wUrls c1wUrls c1wOrderB
      ⟨by decide, by decide, by decide⟩ ⟨by decide, by decide, by decide⟩).2 _⟩

/-! ### C7 — texts without URLs pass through unchanged -/

/-- C7: when the text contains no substring matching the URL pattern
(`findall text = []`), the annotator returns the text unchanged, whatever
the outcomes and completion order; and for empty or absent input the output
is the empty string. -/
theorem c7_no_urls (outcome : Str → CheckOutcome) (order : List Str)
    (text : Str) (h : findall text = []) :
    verify_links_in_text outcome order text = text
    ∧ verify_links_in_text_opt outcome order none = []
    ∧ verify_links_in_text outcome order [] = [] := by
  refine ⟨?_, rfl, by simp [verify_links_in_text]⟩
  by_cases ht : text = []
  · subst ht
    simp [verify_links_in_text]
  · simp [verify_links_in_text, ht, h]

def c7wText : Str := "這裡 no URLs here (只是 text)".toList

/-- Witness for C7 at a concrete URL-free text. -/
theorem c7_witness :
    findall c7wText = []
    ∧ verify_links_in_text (fun _ => CheckOutcome.exn) [] c7wText = c7wText :=
  ⟨by decide,
   (c7_no_urls (fun _ => CheckOutcome.exn) [] c7wText (by decide)).1⟩

/-! ### C8 — deduplication and per-occurrence annotation -/

def c8Text : Str := "http://a http://a/b".toList

def c8Url : Str := "http://a/b".toList

def c8Order : List Str := ["http://a".toList, "http://a/b".toList]

def c8Outcome : Str → CheckOutcome := fun _ => .ok true

/-- C8 counterexample: in `"http://a http://a/b"` the URL `"http://a/b"`
occurs exactly once, yet under the completion order that records
`"http://a"` first, the final output contains no occurrence of
`"http://a/b"` at all — in particular none followed by a space and its
glyph — because the earlier replacement rewrote the inside of that
occurrence.  The claim that every occurrence of every URL gets annotated is
therefore false as stated. -/
theorem c8_counterexample :
    validOrder c8Order (findall c8Text)
    ∧ countOcc c8Text c8Url = 1
    ∧ hasOcc (verify_links_in_text c8Outcome c8Order c8Text)
        (c8Url ++ ' ' :: glyphOf (c8Outcome c8Url)) = false
    ∧ hasOcc (verify_links_in_text c8Outcome c8Order c8Text) c8Url = false := by
  refine ⟨⟨by decide, by decide, by decide⟩, by decide, by decide, by decide⟩

/-- C8 (amended): restricted to texts whose URL-shaped substrings are all
the same string `U` (so no other extracted URL can interfere with the
rewrites), the annotator checks `U` exactly once — the completion order is
necessarily the single entry `[U]` — and the output is the text with each
of its `countOcc text U` non-overlapping occurrences of `U` replaced by
`U ++ " " ++ glyph`, i.e. every occurrence is annotated, all with the same
single glyph appended after a single space. -/
theorem c8_amended (outcome : Str → CheckOutcome) (order : List Str)
    (text U : Str)
    (hv : validOrder order (findall text))
    (hne : findall text ≠ [])
    (hall : ∀ u ∈ findall text, u = U) :
    order = [U]
    ∧ verify_links_in_text outcome order text
        = joinWith (U ++ ' ' :: glyphOf (outcome U)) (splitAll text U)
    ∧ (splitAll text U).length = countOcc text U + 1 := by
  obtain ⟨hnd, hsub, hsup⟩ := hv
  have hUmem : U ∈ findall text := by
    cases hfa : findall text with
    | nil => exact absurd hfa hne
    | cons a l =>
      have ha : a = U := hall a (by rw [hfa]; exact List.mem_cons_self a l)
      subst ha
      exact List.mem_cons_self a l
  have hOrder : order = [U] :=
    eq_single_of_forall_eq hnd (fun x hx => hall x (hsub x hx)) (hsup U hUmem)
  have hUne : U ≠ [] := findall_ne_nil hUmem
  have hText : text ≠ [] := by
    intro hh
    rw [hh] at hne
    exact hne rfl
  refine ⟨hOrder, ?_, ?_⟩
  · rw [verify_links_in_text, if_neg hText, if_neg hne, hOrder]
    simp only [url_statuses, List.map_cons, List.map_nil, List.foldl_cons,
      List.foldl_nil, annotStep]
    rw [replaceAll, if_neg hUne, splitAll, if_neg hUne]
    exact replF_eq_joinWith U (U ++ ' ' :: glyphOf (outcome U)) text.length text
  · have hpos : 0 < (splitAll text U).length :=
      List.length_pos.2 (splitAll_ne_nil text U)
    unfold countOcc
    omega

def c8wText : Str := "見 http://x 與 http://x 報告".toList

def c8wUrl : Str := "http://x".toList

def c8wOutcome : Str → CheckOutcome := fun _ => .ok false

/-- Witness for C8 (amended): a text containing the same URL twice; the
instantiated theorem gives the single check and the fully annotated
output. -/
theorem c8_witness :
    validOrder [c8wUrl] (findall c8wText)
    ∧ findall c8wText ≠ []
    ∧ (∀ u ∈ findall c8wText, u = c8wUrl)
    ∧ verify_links_in_text c8wOutcome [c8wUrl] c8wText
        = joinWith (c8wUrl ++ ' ' :: glyphOf (c8wOutcome c8wUrl))
            (splitAll c8wText c8wUrl)
    ∧ (splitAll c8wText c8wUrl).length = countOcc c8wText c8wUrl + 1 :=
  ⟨⟨by decide, by decide, by decide⟩, by decide, by decide,
   (c8_amended c8wOutcome [c8wUrl] c8wText c8wUrl
      ⟨by decide, by decide, by decide⟩ (by decide) (by decide)).2.1,
   (c8_amended c8wOutcome [c8wUrl] c8wText c8wUrl
      ⟨by decide, by decide, by decide⟩ (by decide) (by decide)).2.2⟩

/-! ### C9 — the three-way classification and failure isolation -/

/-- C9: every URL in the completion order receives exactly one status entry,
determined only by its own outcome — `✅` when its check returned true, `❌`
when it returned false, `⚠️` when awaiting its future raised — whatever the
outcomes (including exceptions) of every other URL: one URL's exception
never prevents the remaining URLs from being classified. -/
theorem c9_tristate (outcome : Str → CheckOutcome) (order : List Str)
    (u : Str) (h : u ∈ order) :
    lookupKey u (url_statuses outcome order) = some (glyphOf (outcome u))
    ∧ glyphOf (.ok true) = "✅".toList
    ∧ glyphOf (.ok false) = "❌".toList
    ∧ glyphOf .exn = "⚠️".toList := by
  refine ⟨?_, rfl, rfl, rfl⟩
  rw [lookupKey_url_statuses, if_pos h]

def c9wOrder : List Str := ["http://bad".toList, "http://good".toList]

def c9wOutcome : Str → CheckOutcome :=
  fun u => if u = "http://bad".toList then .exn else .ok true

/-- Witness for C9: with one URL's check raising, the other URL still gets
its own glyph. -/
theorem c9_witness :
    ("http://good".toList : Str) ∈ c9wOrder
    ∧ lookupKey ("http://good".toList : Str) (url_statuses c9wOutcome c9wOrder)
        = some (glyphOf (c9wOutcome ("http://good".toList)))
    ∧ glyphOf (.ok true) = "✅".toList
    ∧ glyphOf (.ok false) = "❌".toList
    ∧ glyphOf .exn = "⚠️".toList :=
  ⟨by decide, (c9_tristate c9wOutcome c9wOrder _ (by decide)).1,
   (c9_tristate c9wOutcome c9wOrder ("http://good".toList) (by decide)).2.1,
   (c9_tristate c9wOutcome c9wOrder ("http://good".toList) (by decide)).2.2.1,
   (c9_tristate c9wOutcome c9wOrder ("http://good".toList) (by decide)).2.2.2⟩
